import Mathlib

/-!
Verification development for the figanos plotting-convenience library.

The repository's Python implementation (`figanos/matplotlib/plot.py`,
`figanos/matplotlib/utils.py`, `figanos/_logo.py`) is not part of the
source snapshot; only its documentation (notebooks, rst pages, the
style sheet and packaging metadata) is.  The definitions below are
therefore shallow models of the behaviour described by the
specification and by the in-repository documentation.  Each such
definition carries a doc comment starting `Modelled from the spec:`.
-/

namespace Figanos

/-! ### String helpers -/

/-- Does `pat` occur at the head of `l`? -/
def headMatch : List Char → List Char → Bool
  | [], _ => true
  | _ :: _, [] => false
  | a :: as, b :: bs => a == b && headMatch as bs

/-- Does `pat` occur as a contiguous sublist of `l`? -/
def containsChars (pat : List Char) : List Char → Bool
  | [] => pat.isEmpty
  | c :: rest => headMatch pat (c :: rest) || containsChars pat rest

/-- Does the string `pat` occur as a substring of `s`? -/
def hasSub (pat s : String) : Bool := containsChars pat.data s.data

/-- Boolean membership of a string in a list of strings. -/
def memStr (x : String) (l : List String) : Bool := l.any (fun y => y == x)

/-! ### Percentile-suffix pattern

Modelled from the spec: the timeseries ensemble table in the
documentation says a Dataset whose "variables contain a substring of
the format `_pNN`, where N are numbers" is drawn as a shaded line
graph.  `pctHead` recognises the pattern `'_' 'p' digit digit` at the
head of a character list; `hasPctSub` scans all positions. -/

/-- Is the head of the list of the form `'_' 'p' digit digit`? -/
def pctHead : List Char → Bool
  | c1 :: c2 :: a :: b :: _ => c1 == '_' && c2 == 'p' && a.isDigit && b.isDigit
  | _ => false

/-- Does a `_pNN` pattern occur anywhere in the character list? -/
def hasPctSub : List Char → Bool
  | [] => false
  | c :: rest => pctHead (c :: rest) || hasPctSub rest

/-- Does the variable name contain a `_pNN` percentile suffix? -/
def hasPctSuffix (s : String) : Bool := hasPctSub s.data

/-- The percentile number `NN` read at the head of the list, when the
`_pNN` pattern matches there. -/
def pctNumHead : List Char → Option Nat
  | c1 :: c2 :: a :: b :: _ =>
      if c1 == '_' && c2 == 'p' && a.isDigit && b.isDigit then
        some ((a.toNat - 48) * 10 + (b.toNat - 48))
      else none
  | _ => none

/-- The first percentile number occurring in the character list. -/
def pctNumAux : List Char → Option Nat
  | [] => none
  | c :: rest =>
      match pctNumHead (c :: rest) with
      | some n => some n
      | none => pctNumAux rest

/-- The percentile number carried by a variable name such as
`tx_max_p50`. -/
def pctOf (s : String) : Option Nat := pctNumAux s.data

/-! ### Sorting and the middle percentile -/

/-- Insert a number into a sorted list of numbers. -/
def insertSorted (n : Nat) : List Nat → List Nat
  | [] => [n]
  | m :: rest => if n ≤ m then n :: m :: rest else m :: insertSorted n rest

/-- Insertion sort on lists of numbers. -/
def sortNats : List Nat → List Nat
  | [] => []
  | n :: rest => insertSorted n (sortNats rest)

/-- The middle element of a list of percentile numbers (the median
position of the sorted list). -/
def middlePct (l : List Nat) : Nat := (sortNats l).getD (l.length / 2) 0

/-! ### The timeseries data-shape categorisation

Modelled from the spec: the timeseries documentation table lists, in
order, the Dataset configurations that are recognised: variables with
a `_pNN` substring (shaded graph, central line the middle percentile);
a dimension named `percentiles` (same shaded graph); variables
containing `min`, `max` and `mean`, possibly capitalised (shaded
graph, central line the mean); a dimension named `realization` (one
line per realization); and any other Dataset (one line per
variable). -/

/-- A shallow model of an xarray Dataset as far as the timeseries
plot-type selection is concerned: its variable names, its dimension
names, the coordinate values of a `percentiles` dimension (empty when
absent), and the size of a `realization` dimension. -/
structure Dataset where
  data_vars : List String
  dims : List String
  percentile_values : List Nat
  realization_count : Nat
deriving DecidableEq

/-- Do the variable names contain `min`, `max` and `mean` (possibly
capitalised)? -/
def hasStatsVars (vars : List String) : Bool :=
  vars.any (fun v => hasSub "min" v || hasSub "Min" v)
    && vars.any (fun v => hasSub "max" v || hasSub "Max" v)
    && vars.any (fun v => hasSub "mean" v || hasSub "Mean" v)

/-- The first variable name containing `mean` (or `Mean`). -/
def meanVar (vars : List String) : String :=
  (vars.find? (fun v => hasSub "mean" v || hasSub "Mean" v)).getD ""

/-- The recognised Dataset configurations of the timeseries table. -/
inductive ArrayCateg
  | pctVarEns
  | pctDimEns
  | statsVarEns
  | realizationEns
  | nonEnsDs
deriving DecidableEq

/-- Modelled from the spec: the data-shape categorisation of the
timeseries operation, checking the documented configurations in the
order the documentation table lists them. -/
def get_array_categ (ds : Dataset) : ArrayCateg :=
  if ds.data_vars.any hasPctSuffix then .pctVarEns
  else if memStr "percentiles" ds.dims then .pctDimEns
  else if hasStatsVars ds.data_vars then .statsVarEns
  else if memStr "realization" ds.dims then .realizationEns
  else .nonEnsDs

/-- The kind of figure the timeseries operation renders. -/
inductive PlotSpec
  | shadedBand (centralPercentile : Nat)
  | statsBand (centralVar : String)
  | linesPerRealization (n : Nat)
  | linesPerVar (vars : List String)
deriving DecidableEq

/-- Modelled from the spec: the plot plan produced by the timeseries
operation for a Dataset, following the documentation table. -/
def timeseries_plan (ds : Dataset) : PlotSpec :=
  match get_array_categ ds with
  | .pctVarEns => .shadedBand (middlePct (ds.data_vars.filterMap pctOf))
  | .pctDimEns => .shadedBand (middlePct ds.percentile_values)
  | .statsVarEns => .statsBand (meanVar ds.data_vars)
  | .realizationEns => .linesPerRealization ds.realization_count
  | .nonEnsDs => .linesPerVar ds.data_vars

/-- Is the plan a shaded percentile band? -/
def isShadedBand : PlotSpec → Bool
  | .shadedBand _ => true
  | _ => false

/-- The central percentile of a shaded band plan. -/
def centralPct : PlotSpec → Option Nat
  | .shadedBand c => some c
  | _ => none

/-- Is the plan a line-per-realization graph? -/
def isRealizationLines : PlotSpec → Bool
  | .linesPerRealization _ => true
  | _ => false

/-- The percentile numbers the shaded band of a Dataset is built from:
those carried by the variable names when the `_pNN` pattern selected
the plot, the `percentiles` coordinate values otherwise. -/
def dsPercentiles (ds : Dataset) : List Nat :=
  if ds.data_vars.any hasPctSuffix then ds.data_vars.filterMap pctOf
  else ds.percentile_values

/-- The `_pNN` pattern as a proposition about a variable name: some
position carries an underscore, a `p` and two digits. -/
def PctPattern (v : String) : Prop :=
  ∃ pre : List Char, ∃ a b : Char, ∃ post : List Char,
    a.isDigit = true ∧ b.isDigit = true ∧
      v.data = pre ++ '_' :: 'p' :: a :: b :: post

/-! ### Basic lemmas about the pattern scanners -/

theorem memStr_iff (x : String) (l : List String) :
    memStr x l = true ↔ x ∈ l := by
  induction l with
  | nil => simp [memStr]
  | cons y ys ih =>
      simp only [memStr, List.any_cons, Bool.or_eq_true, beq_iff_eq] at *
      constructor
      · rintro (h | h)
        · exact h ▸ List.mem_cons_self y ys
        · exact List.mem_cons_of_mem y (ih.mp h)
      · intro h
        rcases List.mem_cons.mp h with h | h
        · exact Or.inl h.symm
        · exact Or.inr (ih.mpr h)

theorem hasPctSub_append (pre post : List Char) (a b : Char)
    (ha : a.isDigit = true) (hb : b.isDigit = true) :
    hasPctSub (pre ++ '_' :: 'p' :: a :: b :: post) = true := by
  induction pre with
  | nil =>
      simp [hasPctSub, pctHead, ha, hb]
  | cons c cs ih =>
      simp [hasPctSub, ih]

theorem pctPattern_hasPctSuffix (v : String) (h : PctPattern v) :
    hasPctSuffix v = true := by
  obtain ⟨pre, a, b, post, ha, hb, hv⟩ := h
  unfold hasPctSuffix
  rw [hv]
  exact hasPctSub_append pre post a b ha hb

/-! ### Claims C1 and C2: timeseries plot-type selection -/

/-- C1: a Dataset whose variable names contain a `_pNN` substring, or
which has a dimension named `percentiles`, is rendered by the
timeseries operation as a shaded percentile band whose central line is
the middle percentile; the percentile-suffix pattern match on variable
names is what selects this plot type. -/
theorem timeseries_percentile_band (ds : Dataset)
    (h : (∃ v ∈ ds.data_vars, PctPattern v) ∨ "percentiles" ∈ ds.dims) :
    isShadedBand (timeseries_plan ds) = true ∧
      centralPct (timeseries_plan ds) = some (middlePct (dsPercentiles ds)) := by
  by_cases hv : ds.data_vars.any hasPctSuffix = true
  · unfold timeseries_plan get_array_categ dsPercentiles
    rw [if_pos hv, if_pos hv]
    exact ⟨rfl, rfl⟩
  · have hdim : memStr "percentiles" ds.dims = true := by
      rcases h with h | h
      · exfalso
        obtain ⟨v, hvmem, hp⟩ := h
        exact hv (List.any_eq_true.mpr ⟨v, hvmem, pctPattern_hasPctSuffix v hp⟩)
      · exact (memStr_iff _ _).mpr h
    have hv' : ds.data_vars.any hasPctSuffix = false :=
      Bool.eq_false_iff.mpr hv
    unfold timeseries_plan get_array_categ dsPercentiles
    rw [hv', hdim]
    simp [isShadedBand, centralPct]

/-- Witness for `timeseries_percentile_band` at the documentation's
example Dataset with variables `tx_max_p10`, `tx_max_p50`,
`tx_max_p90`: the plan is a shaded band whose central line is the 50th
percentile. -/
theorem timeseries_percentile_band_witness :
    isShadedBand
        (timeseries_plan ⟨["tx_max_p10", "tx_max_p50", "tx_max_p90"], ["time"], [], 0⟩)
        = true ∧
      centralPct
        (timeseries_plan ⟨["tx_max_p10", "tx_max_p50", "tx_max_p90"], ["time"], [], 0⟩)
        = some 50 := by
  have h := timeseries_percentile_band
    ⟨["tx_max_p10", "tx_max_p50", "tx_max_p90"], ["time"], [], 0⟩
    (Or.inl ⟨"tx_max_p10", by decide,
      ⟨['t', 'x', '_', 'm', 'a', 'x'], '1', '0', [], by decide, by decide, rfl⟩⟩)
  exact ⟨h.1, by rw [h.2]; decide⟩

/-- C2 counterexample: a Dataset with a `realization` dimension, no
percentile pattern, and variables named `tmin`, `tmax`, `tmean` is
rendered as a min/max/mean statistics band, not as one line per
realization. -/
theorem timeseries_realization_counterexample :
    memStr "realization" (Dataset.mk ["tmin", "tmax", "tmean"] ["time", "realization"] [] 5).dims
        = true ∧
      (Dataset.mk ["tmin", "tmax", "tmean"] ["time", "realization"] [] 5).data_vars.any
          hasPctSuffix = false ∧
      memStr "percentiles" (Dataset.mk ["tmin", "tmax", "tmean"] ["time", "realization"] [] 5).dims
        = false ∧
      timeseries_plan (Dataset.mk ["tmin", "tmax", "tmean"] ["time", "realization"] [] 5)
        = .statsBand "tmean" ∧
      isRealizationLines
          (timeseries_plan (Dataset.mk ["tmin", "tmax", "tmean"] ["time", "realization"] [] 5))
        = false := by
  decide

/-- C2 amended: a Dataset with a `realization` dimension that matches
neither the percentile patterns nor the min/max/mean statistics
pattern is rendered as one plain line per realization; a Dataset
matching none of the recognised ensemble configurations falls through
to one line per variable. -/
theorem timeseries_realization_lines (ds : Dataset)
    (hp : ds.data_vars.any hasPctSuffix = false)
    (hpd : "percentiles" ∉ ds.dims)
    (hs : hasStatsVars ds.data_vars = false) :
    ("realization" ∈ ds.dims →
        timeseries_plan ds = .linesPerRealization ds.realization_count) ∧
      ("realization" ∉ ds.dims → timeseries_plan ds = .linesPerVar ds.data_vars) := by
  have hpd' : memStr "percentiles" ds.dims = false := by
    rw [Bool.eq_false_iff]
    intro hmem
    exact hpd ((memStr_iff _ _).mp hmem)
  constructor
  · intro hr
    have hr' : memStr "realization" ds.dims = true := (memStr_iff _ _).mpr hr
    unfold timeseries_plan get_array_categ
    rw [hp, hpd', hs, hr']
    simp
  · intro hr
    have hr' : memStr "realization" ds.dims = false := by
      rw [Bool.eq_false_iff]
      intro hmem
      exact hr ((memStr_iff _ _).mp hmem)
    unfold timeseries_plan get_array_categ
    rw [hp, hpd', hs, hr']
    simp

/-- Witness for `timeseries_realization_lines` at a Dataset with a
`realization` dimension of size 3 and at a plain Dataset. -/
theorem timeseries_realization_lines_witness :
    timeseries_plan ⟨["var1"], ["time", "realization"], [], 3⟩
        = .linesPerRealization 3 ∧
      timeseries_plan ⟨["var1", "var2"], ["time"], [], 0⟩
        = .linesPerVar ["var1", "var2"] := by
  refine ⟨?_, ?_⟩
  · exact (timeseries_realization_lines ⟨["var1"], ["time", "realization"], [], 3⟩
      (by decide) (by decide) (by decide)).1 (by decide)
  · exact (timeseries_realization_lines ⟨["var1", "var2"], ["time"], [], 0⟩
      (by decide) (by decide) (by decide)).2 (by decide)

/-! ### Colormap inference

Modelled from the spec: when `cmap=None`, figanos looks for certain
variable names in `da.name` and `da.history`, in this order, and
returns a colormap corresponding to the group of this variable,
following the keyword table of the documentation; keywords are not
recognised when part of a longer word; when no variable name matches a
group, or multiple matches are found, the function resorts to the
Batlow colormap.  The `divergent` argument dictates whether the
colormap is sequential or divergent; a number becomes the center of
the colormap, the default central value being 0. -/

/-- Split a character list into maximal alphanumeric words, the
accumulator holding the (reversed) current word. -/
def tokensAux : List Char → List Char → List String
  | [], acc => if acc.isEmpty then [] else [String.mk acc.reverse]
  | c :: rest, acc =>
      if c.isAlphanum then tokensAux rest (c :: acc)
      else if acc.isEmpty then tokensAux rest []
      else String.mk acc.reverse :: tokensAux rest []

/-- The alphanumeric words of a string; keyword matching is performed
against whole words so that a keyword is not recognised inside a
longer word. -/
def wordsOf (s : String) : List String := tokensAux s.data []

/-- Modelled from the spec: the static variable-name → colormap-group
table (`variable_groups.json`), as given by the documentation's
keyword table. -/
def staticVarGroups : List (String × String) :=
  [("tas", "temp"), ("tasmin", "temp"), ("tasmax", "temp"), ("tdps", "temp"),
   ("tg", "temp"), ("tn", "temp"), ("tx", "temp"),
   ("pr", "prec"), ("prc", "prec"), ("hurs", "prec"), ("huss", "prec"),
   ("rain", "prec"), ("precip", "prec"), ("precipitation", "prec"),
   ("humidity", "prec"), ("evapotranspiration", "prec"),
   ("sfcWind", "wind"), ("ua", "wind"), ("uas", "wind"), ("vas", "wind"),
   ("snw", "cryo"), ("snd", "cryo"), ("prsn", "cryo"), ("siconc", "cryo"),
   ("ice", "cryo")]

/-- Modelled from the spec: the static scenario-name → color table
(IPCC scenario colours used by the timeseries legend keys). -/
def staticScenColors : List (String × String) :=
  [("ssp119", "#00a9cf"), ("ssp126", "#003466"), ("ssp245", "#f69320"),
   ("ssp370", "#df0000"), ("ssp585", "#980002"),
   ("rcp26", "#003466"), ("rcp45", "#709fcc"), ("rcp85", "#980002")]

/-- The groups of the table one of whose keywords occurs as a whole
word of `s`, without duplicates. -/
def matchedGroups (tbl : List (String × String)) (s : String) : List String :=
  ((tbl.filter (fun kv => memStr kv.1 (wordsOf s))).map (fun kv => kv.2)).dedup

/-- The unique group matched by the variable name, else by its history
attribute: exactly one matching group is required. -/
def inferGroup (tbl : List (String × String)) (name hist : String) : Option String :=
  match matchedGroups tbl name with
  | [g] => some g
  | [] =>
      match matchedGroups tbl hist with
      | [g] => some g
      | _ => none
  | _ => none

/-- The `divergent` argument of the plotting calls: absent, enabled,
or a number giving the center of the divergent colormap. -/
inductive DivArg
  | off
  | on
  | center (c : ℚ)
deriving DecidableEq

/-- Is the requested colormap divergent? -/
def isDiv : DivArg → Bool
  | .off => false
  | _ => true

/-- The center value of the divergent colormap requested by the
`divergent` argument: a supplied number, the default 0 when merely
enabled, none for a sequential colormap. -/
def divCenter : DivArg → Option ℚ
  | .off => none
  | .on => some 0
  | .center c => some c

/-- The colormap-relevant outcome of a map-plotting call: the chosen
colormap name and the center value, if any. -/
structure GridStyle where
  cmapName : String
  center : Option ℚ
deriving DecidableEq

/-- Modelled from the spec: the colormap selection of the map-plotting
calls.  An explicit `cmap` argument is used as given; with `cmap=None`
the unique matched variable group provides the colormap family, made
sequential or divergent by the `divergent` argument, and the Batlow
fallback is used when no unique group matches. -/
def gridmap_style (tbl : List (String × String)) (cmapArg : Option String)
    (dv : DivArg) (name hist : String) : GridStyle :=
  { cmapName :=
      match cmapArg with
      | some c => c
      | none =>
          match inferGroup tbl name hist with
          | some g => g ++ (if isDiv dv then "_div" else "_seq")
          | none => "Batlow"
    center := divCenter dv }

/-! ### Claims C3 and C4: colormap and divergence selection -/

/-- C3: with `cmap=None` the colormap is selected by matching the
variable's name, then its history attribute, against the keywords of
the static variable-group table, returning the colormap of the
matched group; when no keyword matches, or more than one group
matches, the Batlow fallback is returned. -/
theorem gridmap_cmap_inference (name hist : String) (dv : DivArg) :
    (∀ g, matchedGroups staticVarGroups name = [g] →
        (gridmap_style staticVarGroups none dv name hist).cmapName
          = g ++ (if isDiv dv then "_div" else "_seq")) ∧
      (∀ g, matchedGroups staticVarGroups name = [] →
        matchedGroups staticVarGroups hist = [g] →
          (gridmap_style staticVarGroups none dv name hist).cmapName
            = g ++ (if isDiv dv then "_div" else "_seq")) ∧
      (matchedGroups staticVarGroups name = [] →
        matchedGroups staticVarGroups hist = [] →
          (gridmap_style staticVarGroups none dv name hist).cmapName = "Batlow") ∧
      (2 ≤ (matchedGroups staticVarGroups name).length →
        (gridmap_style staticVarGroups none dv name hist).cmapName = "Batlow") ∧
      (matchedGroups staticVarGroups name = [] →
        2 ≤ (matchedGroups staticVarGroups hist).length →
          (gridmap_style staticVarGroups none dv name hist).cmapName = "Batlow") := by
  refine ⟨?_, ?_, ?_, ?_, ?_⟩
  · intro g hg
    simp [gridmap_style, inferGroup, hg]
  · intro g hn hh
    simp [gridmap_style, inferGroup, hn, hh]
  · intro hn hh
    simp [gridmap_style, inferGroup, hn, hh]
  · intro hlen
    rcases hm : matchedGroups staticVarGroups name with _ | ⟨a, _ | ⟨b, t⟩⟩
    · rw [hm] at hlen; simp at hlen
    · rw [hm] at hlen; simp at hlen
    · simp [gridmap_style, inferGroup, hm]
  · intro hn hlen
    rcases hm : matchedGroups staticVarGroups hist with _ | ⟨a, _ | ⟨b, t⟩⟩
    · rw [hm] at hlen; simp at hlen
    · rw [hm] at hlen; simp at hlen
    · simp [gridmap_style, inferGroup, hn, hm]

/-- Witness for `gridmap_cmap_inference`: the name `tasmax` matches
only the temperature group and yields its sequential colormap, while
`fantastic` matches no keyword and yields Batlow. -/
theorem gridmap_cmap_inference_witness :
    (gridmap_style staticVarGroups none .off "tasmax" "").cmapName = "temp_seq" ∧
      (gridmap_style staticVarGroups none .off "fantastic" "").cmapName = "Batlow" := by
  constructor
  · have h := (gridmap_cmap_inference "tasmax" "" .off).1 "temp" (by decide)
    rw [h]
    decide
  · exact ((gridmap_cmap_inference "fantastic" "" .off).2.2.1) (by decide) (by decide)

/-- C4: the `divergent` argument decides between a sequential and a
divergent colormap; a number supplied as `divergent` becomes the
center value of the divergent colormap, and when `divergent` is merely
enabled the default center value is 0. -/
theorem gridmap_divergent_center (cmapArg : Option String) (dv : DivArg)
    (name hist : String) (g : String)
    (hg : inferGroup staticVarGroups name hist = some g) :
    ((gridmap_style staticVarGroups none dv name hist).cmapName
        = g ++ (if isDiv dv then "_div" else "_seq")) ∧
      (∀ c, dv = .center c →
        (gridmap_style staticVarGroups cmapArg dv name hist).center = some c) ∧
      (dv = .on →
        (gridmap_style staticVarGroups cmapArg dv name hist).center = some 0) ∧
      (dv = .off →
        (gridmap_style staticVarGroups cmapArg dv name hist).center = none) := by
  refine ⟨?_, ?_, ?_, ?_⟩
  · simp [gridmap_style, hg]
  · intro c hc
    simp [gridmap_style, hc, divCenter]
  · intro hc
    simp [gridmap_style, hc, divCenter]
  · intro hc
    simp [gridmap_style, hc, divCenter]

/-- Witness for `gridmap_divergent_center` at the documentation's
example: the renamed precipitation variable `pr_max_p50` with
`divergent=300` gets the divergent precipitation colormap centered at
300. -/
theorem gridmap_divergent_center_witness :
    (gridmap_style staticVarGroups none (.center 300) "pr_max_p50" "").cmapName
        = "prec_div" ∧
      (gridmap_style staticVarGroups none (.center 300) "pr_max_p50" "").center
        = some 300 := by
  have h := gridmap_divergent_center none (.center 300) "pr_max_p50" "" "prec" (by decide)
  exact ⟨h.1, h.2.1 300 rfl⟩

/-! ### Claim C8: transform inference from dimension names -/

/-- The data coordinate transforms the map-plotting calls can infer. -/
inductive Transform
  | plateCarree
  | rotatedPole
deriving DecidableEq

/-- Modelled from the spec: if a transform is not provided, figanos
looks for dimensions named `lat` and `lon` or `rlat` and `rlon` and
returns the PlateCarree or RotatedPole transforms, respectively,
checking the pairs in the order the documentation lists them. -/
def infer_transform (dims : List String) : Option Transform :=
  if memStr "lat" dims && memStr "lon" dims then some .plateCarree
  else if memStr "rlat" dims && memStr "rlon" dims then some .rotatedPole
  else none

/-- The transform used by a map-plotting call: the explicit argument
when provided, the inferred one otherwise. -/
def gridmap_transform (t : Option Transform) (dims : List String) : Option Transform :=
  match t with
  | some tr => some tr
  | none => infer_transform dims

/-- C8 counterexample: on data whose dimensions contain all of `lat`,
`lon`, `rlat` and `rlon`, the inference returns PlateCarree, so the
claim's clause that data with dimensions `rlat` and `rlon` gets the
RotatedPole transform fails. -/
theorem transform_inference_counterexample :
    memStr "rlat" ["lat", "lon", "rlat", "rlon"] = true ∧
      memStr "rlon" ["lat", "lon", "rlat", "rlon"] = true ∧
      gridmap_transform none ["lat", "lon", "rlat", "rlon"] = some .plateCarree ∧
      gridmap_transform none ["lat", "lon", "rlat", "rlon"] ≠ some .rotatedPole := by
  decide

/-- C8 amended: with no transform argument, data with dimensions named
`lat` and `lon` gets the PlateCarree transform, and data with
dimensions named `rlat` and `rlon` that does not also have both `lat`
and `lon` as dimensions gets the RotatedPole transform (the `lat`/`lon`
pair is checked first). -/
theorem transform_inference (dims : List String) :
    ("lat" ∈ dims → "lon" ∈ dims →
        gridmap_transform none dims = some .plateCarree) ∧
      ("rlat" ∈ dims → "rlon" ∈ dims → ¬("lat" ∈ dims ∧ "lon" ∈ dims) →
        gridmap_transform none dims = some .rotatedPole) := by
  constructor
  · intro hlat hlon
    have h1 : memStr "lat" dims = true := (memStr_iff _ _).mpr hlat
    have h2 : memStr "lon" dims = true := (memStr_iff _ _).mpr hlon
    simp [gridmap_transform, infer_transform, h1, h2]
  · intro hrlat hrlon hnot
    have h1 : memStr "rlat" dims = true := (memStr_iff _ _).mpr hrlat
    have h2 : memStr "rlon" dims = true := (memStr_iff _ _).mpr hrlon
    have h3 : (memStr "lat" dims && memStr "lon" dims) = false := by
      rw [Bool.eq_false_iff]
      intro hand
      rcases Bool.and_eq_true_iff.mp hand with ⟨ha, hb⟩
      exact hnot ⟨(memStr_iff _ _).mp ha, (memStr_iff _ _).mp hb⟩
    simp only [gridmap_transform, infer_transform, h3, h1, h2]
    simp

/-- Witness for `transform_inference` at rotated-pole data with
dimensions `rlat`, `rlon`, `time` and at regular data with dimensions
`lat`, `lon`, `time`. -/
theorem transform_inference_witness :
    gridmap_transform none ["time", "rlat", "rlon"] = some .rotatedPole ∧
      gridmap_transform none ["time", "lat", "lon"] = some .plateCarree := by
  constructor
  · exact (transform_inference ["time", "rlat", "rlon"]).2 (by decide) (by decide)
      (by decide)
  · exact (transform_inference ["time", "lat", "lon"]).1 (by decide) (by decide)

/-! ### Claim C9: the gridmap data argument -/

/-- A shallow model of an xarray object handed to gridmap: a DataArray
(identified by its name) or a Dataset. -/
inductive XrObj
  | dataArray (name : String)
  | dataset (ds : Dataset)
deriving DecidableEq

/-- The `data` argument of gridmap: one object, wrapped in a
dictionary or not. -/
inductive GmapData
  | single (x : XrObj)
  | dict (entries : List (String × XrObj))
deriving DecidableEq

/-- The outcome of selecting what gridmap will plot. -/
inductive SelectResult
  | ok (v : String)
  | err (msg : String)
deriving DecidableEq

/-- The variable an xarray object contributes to the plot: a DataArray
is plotted as is, and of a Dataset only the first variable is
plotted. -/
def firstVar : XrObj → SelectResult
  | .dataArray n => .ok n
  | .dataset d =>
      match d.data_vars with
      | [] => .err "empty Dataset"
      | v :: _ => .ok v

/-- Modelled from the spec: gridmap only accepts one object in its
`data` argument, inside a dictionary or not; Datasets are accepted but
only their first variable is plotted. -/
def gridmap_select : GmapData → SelectResult
  | .single x => firstVar x
  | .dict [(_, x)] => firstVar x
  | .dict _ => .err "gridmap accepts a single data object"

/-- C9: gridmap accepts exactly one data object, wrapped in a
dictionary or not; a dictionary with any other number of entries is
rejected, and of a Dataset with several variables only the first is
plotted, the rest being ignored. -/
theorem gridmap_single_object (entries : List (String × XrObj))
    (k : String) (x : XrObj) (d : Dataset) (v : String) (rest : List String)
    (hlen : entries.length ≠ 1) (hd : d.data_vars = v :: rest) :
    (∃ msg, gridmap_select (.dict entries) = .err msg) ∧
      gridmap_select (.dict [(k, x)]) = firstVar x ∧
      gridmap_select (.single (.dataset d)) = .ok v := by
  refine ⟨?_, ?_, ?_⟩
  · match entries with
    | [] => exact ⟨"gridmap accepts a single data object", rfl⟩
    | [e] => exact absurd rfl hlen
    | e1 :: e2 :: t => exact ⟨"gridmap accepts a single data object", rfl⟩
  · rfl
  · simp [gridmap_select, firstVar, hd]

/-- Witness for `gridmap_single_object`: a two-entry dictionary is
rejected, a one-entry dictionary plots its object, and of a Dataset
with variables `tas` and `pr` only `tas` is plotted. -/
theorem gridmap_single_object_witness :
    (∃ msg,
        gridmap_select
            (.dict [("a", .dataArray "tas"), ("b", .dataArray "pr")]) = .err msg) ∧
      gridmap_select (.dict [("a", .dataArray "tas")]) = firstVar (.dataArray "tas") ∧
      gridmap_select (.single (.dataset ⟨["tas", "pr"], ["lat", "lon"], [], 0⟩))
        = .ok "tas" :=
  gridmap_single_object
    [("a", .dataArray "tas"), ("b", .dataArray "pr")] "a" (.dataArray "tas")
    ⟨["tas", "pr"], ["lat", "lon"], [], 0⟩ "tas" ["pr"] (by decide) rfl

/-! ### Claim C5: input validation happens before any rendering -/

/-- The ordinary exceptions raised by the input validation of the
plotting calls. -/
inductive PlotErr
  | wrongDims (got expected : Nat)
  | missingKey (k : String)
deriving DecidableEq

/-- The outcome of a plotting call: a figure or a raised exception. -/
inductive PlotRes
  | ok (fig : String)
  | err (e : PlotErr)
deriving DecidableEq

/-- The raw input of a plotting call as far as validation is
concerned: its number of dimensions and the keys it provides. -/
structure RawInput where
  ndims : Nat
  keys : List String
deriving DecidableEq

/-- Modelled from the spec: the basic argument validation of the
plotting calls: a dimensionality check and a missing-key check,
surfacing as ordinary exceptions. -/
def validateInput (expected : Nat) (required : List String) (i : RawInput) :
    PlotRes :=
  if i.ndims ≠ expected then .err (.wrongDims i.ndims expected)
  else
    match required.find? (fun k => !(memStr k i.keys)) with
    | some k => .err (.missingKey k)
    | none => .ok "validated"

/-- Modelled from the spec: a plotting call validates its input and
only then forwards one call to the wrapped plotting function; the
second component logs the forwarded calls. -/
def runPlot (expected : Nat) (required : List String) (i : RawInput) :
    PlotRes × List String :=
  match validateInput expected required i with
  | .err e => (.err e, [])
  | .ok _ => (.ok "figure", ["forwarded plotting call"])

/-- C5: when the input has the wrong dimensionality or misses a
required key, the plotting call surfaces the validation exception and
forwards nothing to the wrapped plotting call: no rendering happens
and there is no retry or partial failure, the forwarded-call log being
empty. -/
theorem plot_validation_no_render (expected : Nat) (required : List String)
    (i : RawInput) (e : PlotErr)
    (h : validateInput expected required i = .err e) :
    runPlot expected required i = (.err e, []) := by
  simp [runPlot, h]

/-- Witness for `plot_validation_no_render` at a 3-dimensional input
handed to a call expecting 2 dimensions. -/
theorem plot_validation_no_render_witness :
    runPlot 2 ["units"] ⟨3, ["units"]⟩ = (.err (.wrongDims 3 2), []) :=
  plot_validation_no_render 2 ["units"] ⟨3, ["units"]⟩ (.wrongDims 3 2) (by decide)

/-! ### Claim C10: the logo catalog

Modelled from the spec: logos are stored in the user's home
configuration directory in the `figanos` data folder; `set_logo(path,
name)` installs the file there and makes it retrievable by name; on
installation the `default` name maps to the `figanos_logo.png` file
until `set_logo` is called with the name `default`. -/

/-- The characters of the last path component, `acc` holding the
(reversed) component read so far. -/
def basenameAux : List Char → List Char → List Char
  | [], acc => acc.reverse
  | '/' :: rest, _ => basenameAux rest []
  | c :: rest, acc => basenameAux rest (c :: acc)

/-- The file name of a path. -/
def basename (p : String) : String := String.mk (basenameAux p.data [])

/-- The figanos data folder inside the user's configuration
directory. -/
def figanosDataDir : String := "$XDG_CONFIG_HOME/figanos"

/-- Insert or replace a binding in an association list. -/
def upsert (k v : String) : List (String × String) → List (String × String)
  | [] => [(k, v)]
  | (k0, v0) :: rest => if k0 == k then (k, v) :: rest else (k0, v0) :: upsert k v rest

/-- The logo catalog: names bound to the installed file paths. -/
structure Logos where
  catalog : List (String × String)
deriving DecidableEq

/-- Modelled from the spec: the initial catalog, in which `default`
maps to the bundled `figanos_logo.png`. -/
def logosInit : Logos := ⟨[("default", figanosDataDir ++ "/figanos_logo.png")]⟩

/-- Modelled from the spec: `set_logo` copies the file into the
figanos data folder and binds the given name to the installed path. -/
def set_logo (l : Logos) (path name : String) : Logos :=
  ⟨upsert name (figanosDataDir ++ "/" ++ basename path) l.catalog⟩

/-- The installed path bound to a logo name. -/
def getLogo (l : Logos) (name : String) : Option String :=
  l.catalog.lookup name

theorem lookup_upsert_self (k v : String) (l : List (String × String)) :
    (upsert k v l).lookup k = some v := by
  induction l with
  | nil => simp [upsert, List.lookup]
  | cons kv rest ih =>
      obtain ⟨k0, v0⟩ := kv
      by_cases h : k0 = k
      · simp [upsert, h, List.lookup]
      · have hb : (k0 == k) = false := by simp [h]
        have hb' : (k == k0) = false := by simp [Ne.symm h]
        simp [upsert, hb, List.lookup, hb', ih]

theorem lookup_upsert_other (k k' v : String) (l : List (String × String))
    (hne : k' ≠ k) : (upsert k v l).lookup k' = l.lookup k' := by
  have hb : (k' == k) = false := by simp [hne]
  induction l with
  | nil => simp [upsert, List.lookup, hb]
  | cons kv rest ih =>
      obtain ⟨k0, v0⟩ := kv
      by_cases h : k0 = k
      · have hb2 : (k' == k0) = false := by simp [h, hne]
        simp [upsert, h, List.lookup, hb, hb2]
      · have hb3 : (k0 == k) = false := by simp [h]
        by_cases h2 : k' = k0
        · simp [upsert, hb3, List.lookup, h2]
        · have hb4 : (k' == k0) = false := by simp [h2]
          simp [upsert, hb3, List.lookup, hb4, ih]

/-- C10: after `set_logo path name`, the logo is stored under the
figanos data folder of the user's configuration directory and is
retrievable by that name; the name `default` maps to the
`figanos_logo.png` file of the initial catalog and is only rebound
when `set_logo` is called with the name `default`. -/
theorem logos_set_logo (l : Logos) (path name : String)
    (hname : name ≠ "default") :
    getLogo (set_logo l path name) name
        = some (figanosDataDir ++ "/" ++ basename path) ∧
      getLogo logosInit "default" = some (figanosDataDir ++ "/figanos_logo.png") ∧
      getLogo (set_logo l path name) "default" = getLogo l "default" ∧
      (∀ p, getLogo (set_logo l p "default") "default"
        = some (figanosDataDir ++ "/" ++ basename p)) := by
  refine ⟨?_, ?_, ?_, ?_⟩
  · exact lookup_upsert_self name _ l.catalog
  · rfl
  · exact lookup_upsert_other name "default" _ l.catalog (Ne.symm hname)
  · intro p
    exact lookup_upsert_self "default" _ l.catalog

/-- Witness for `logos_set_logo`: installing
`/home/user/my_logo.png` under the name `my_custom_logo` stores it in
the figanos data folder, leaves `default` bound to
`figanos_logo.png`, and rebinding `default` replaces it. -/
theorem logos_set_logo_witness :
    getLogo (set_logo logosInit "/home/user/my_logo.png" "my_custom_logo")
        "my_custom_logo" = some "$XDG_CONFIG_HOME/figanos/my_logo.png" ∧
      getLogo (set_logo logosInit "/home/user/my_logo.png" "my_custom_logo")
        "default" = some "$XDG_CONFIG_HOME/figanos/figanos_logo.png" := by
  have h := logos_set_logo logosInit "/home/user/my_logo.png" "my_custom_logo"
    (by decide)
  refine ⟨?_, ?_⟩
  · rw [h.1]
    rfl
  · rw [h.2.2.1]
    rfl

/-! ### Claims C6 and C7: library-level state across a session

Modelled from the spec: the library is stateless per call aside from
the global style-sheet selection and the on-disk logo cache, and its
lookup tables are loaded once from static files. -/

/-- The library-level state: the selected style sheet, the on-disk
logo cache, and the two static lookup tables. -/
structure LibState where
  style : String
  logos : Logos
  var_groups : List (String × String)
  scen_colors : List (String × String)
deriving DecidableEq

/-- The operations a session is made of: plotting calls, the
style-setting operation and logo installation. -/
inductive LibOp
  | plotTs (ds : Dataset)
  | plotGrid (cmapArg : Option String) (dv : DivArg) (name hist : String)
  | setStyle (s : String)
  | setLogo (path name : String)
deriving DecidableEq

/-- What an operation hands back to the caller. -/
inductive LibOut
  | tsFig (p : PlotSpec)
  | gridFig (g : GridStyle)
  | styleSet
  | logoSet
deriving DecidableEq

/-- Modelled from the spec: one library operation, returning the new
library state together with its output.  Plotting reads the tables of
the current state; only `setStyle` touches the style selection and
only `setLogo` touches the logo cache. -/
def runOp (st : LibState) : LibOp → LibState × LibOut
  | .plotTs ds => (st, .tsFig (timeseries_plan ds))
  | .plotGrid c dv n h => (st, .gridFig (gridmap_style st.var_groups c dv n h))
  | .setStyle s => ({ st with style := s }, .styleSet)
  | .setLogo p n => ({ st with logos := set_logo st.logos p n }, .logoSet)

/-- A session: the state after a sequence of operations. -/
def runOps (st : LibState) : List LibOp → LibState
  | [] => st
  | op :: rest => runOps (runOp st op).1 rest

/-- Modelled from the spec: the state right after import, the two
lookup tables having been loaded from their static files. -/
def initState : LibState :=
  { style := "ouranos"
    logos := logosInit
    var_groups := staticVarGroups
    scen_colors := staticScenColors }

theorem runOp_tables (st : LibState) (op : LibOp) :
    (runOp st op).1.var_groups = st.var_groups ∧
      (runOp st op).1.scen_colors = st.scen_colors := by
  cases op <;> simp [runOp]

theorem runOps_tables (ops : List LibOp) (st : LibState) :
    (runOps st ops).var_groups = st.var_groups ∧
      (runOps st ops).scen_colors = st.scen_colors := by
  induction ops generalizing st with
  | nil => exact ⟨rfl, rfl⟩
  | cons op rest ih =>
      have h1 := runOp_tables st op
      have h2 := ih (runOp st op).1
      exact ⟨by rw [runOps, h2.1, h1.1], by rw [runOps, h2.2, h1.2]⟩

/-- C6: plotting calls are stateless: they leave the library state
unchanged, and a second call on the same input returns the same
output; the style selection differs after an operation only when that
operation was `setStyle`, the logo cache differs only when it was
`setLogo`, and the lookup tables never change. -/
theorem plotting_stateless (st : LibState) (ds : Dataset) (op : LibOp) :
    (runOp st (.plotTs ds)).1 = st ∧
      runOp (runOp st (.plotTs ds)).1 (.plotTs ds) = runOp st (.plotTs ds) ∧
      (∀ c dv n h, (runOp st (.plotGrid c dv n h)).1 = st) ∧
      (∀ c dv n h,
        runOp (runOp st (.plotGrid c dv n h)).1 (.plotGrid c dv n h)
          = runOp st (.plotGrid c dv n h)) ∧
      ((runOp st op).1.style ≠ st.style → ∃ s, op = .setStyle s) ∧
      ((runOp st op).1.logos ≠ st.logos → ∃ p n, op = .setLogo p n) ∧
      (runOp st op).1.var_groups = st.var_groups ∧
      (runOp st op).1.scen_colors = st.scen_colors := by
  refine ⟨rfl, rfl, fun c dv n h => rfl, fun c dv n h => rfl, ?_, ?_,
    (runOp_tables st op).1, (runOp_tables st op).2⟩
  · intro hst
    cases op with
    | plotTs ds' => exact absurd rfl hst
    | plotGrid c dv n h => exact absurd rfl hst
    | setStyle s => exact ⟨s, rfl⟩
    | setLogo p n => exact absurd rfl hst
  · intro hlg
    cases op with
    | plotTs ds' => exact absurd rfl hlg
    | plotGrid c dv n h => exact absurd rfl hlg
    | setStyle s => exact absurd rfl hlg
    | setLogo p n => exact ⟨p, n, rfl⟩

/-- Witness for `plotting_stateless`: a concrete plotting call leaves
a concrete state untouched, and a style change is accounted for by the
`setStyle` operation that caused it. -/
theorem plotting_stateless_witness :
    (runOp initState (.plotTs ⟨["tas"], ["time"], [], 0⟩)).1 = initState ∧
      (∃ s, (LibOp.setStyle "transparent") = .setStyle s) := by
  have h := plotting_stateless initState ⟨["tas"], ["time"], [], 0⟩
    (.setStyle "transparent")
  refine ⟨h.1, h.2.2.2.2.1 ?_⟩
  intro hstyle
  have : ("transparent" : String) = "ouranos" := hstyle
  simp at this

/-- C7: the variable-group table and the scenario-color table are
loaded once from static files and never mutated: after any sequence of
operations the session still holds the two static tables, so colormap
inference for a given variable name gives the same answer at any point
in the session. -/
theorem tables_never_mutated (ops : List LibOp) :
    (runOps initState ops).var_groups = staticVarGroups ∧
      (runOps initState ops).scen_colors = staticScenColors ∧
      (∀ c dv n h,
        (runOp (runOps initState ops) (.plotGrid c dv n h)).2
          = (runOp initState (.plotGrid c dv n h)).2) := by
  have h := runOps_tables ops initState
  refine ⟨h.1, h.2, ?_⟩
  intro c dv n hh
  simp only [runOp]
  rw [h.1]

end Figanos
